import Mathlib

/-!
# Payment-URI parsing in `src/qt/guiutil.cpp`

A shallow embedding of `GUIUtil::parseBitcoinURI` (both overloads) and the
properties of it that the specification states.

* `QString` is a list of characters.
* A `QUrl` is the record of the three components the code reads from it:
  `scheme()`, `path()` and the ordered `QUrlQuery(uri).queryItems()`.
* The `SendCoinsRecipient *out` argument is an `Option`: `none` is the null
  pointer, `some r` is a pointer to a recipient currently holding `r`.  The
  functions return the `bool` together with the state of `*out` afterwards.
* `BitcoinUnits::parse(BitcoinUnits::BTC, value, &amount)` lives in
  `bitcoinunits.cpp`, which is not among the embedded sources; the embedding
  takes it as the parameter `parse`, `none` standing for `false`.
-/

namespace GUIUtil

/-- A `QString`, as its sequence of characters. -/
abbrev QString := List Char

/-- Embedding of `QString::startsWith(s)`. -/
def startsWith (s pre : QString) : Bool :=
  pre.isPrefixOf s

/-- Embedding of `QString::remove(position, n)`: drops `n` characters beginning at
index `position` (fewer when the string ends before). -/
def remove (s : QString) (position n : Nat) : QString :=
  s.take position ++ s.drop (position + n)

/-- Embedding of `QString::replace(position, n, after)`: replaces `n` characters
beginning at index `position` by `after` (fewer when the string ends before). -/
def replace (s : QString) (position n : Nat) (after : QString) : QString :=
  s.take position ++ after ++ s.drop (position + n)

/-- The fields of `SendCoinsRecipient` that `parseBitcoinURI` touches. -/
structure SendCoinsRecipient where
  address : QString
  label : QString
  amount : Int
  deriving DecidableEq, Repr

/-- The components of a `QUrl` that `parseBitcoinURI` reads. -/
structure QUrl where
  scheme : QString
  path : QString
  queryItems : List (QString × QString)
  deriving DecidableEq, Repr

/-- The expected scheme, `QString("PRiVCY")`. -/
def expectedScheme : QString := "PRiVCY".toList

/-- The required marker, `"req-"`. -/
def reqMarker : QString := "req-".toList

/-- The key `"label"`. -/
def labelKey : QString := "label".toList

/-- The key `"amount"`. -/
def amountKey : QString := "amount".toList

/-- The key as the loop body sees it after `if (startsWith("req-")) remove(0, 4)`. -/
def strippedKey (key : QString) : QString :=
  if startsWith key reqMarker then remove key 0 4 else key

/-- One pass through the body of the `for` loop of `parseBitcoinURI(const QUrl&, …)`
(source lines 204-229) on the pair `i`, with `rv` the recipient built so far.
`none` is a `return false`. -/
def loopBody (parse : QString → Option Int) (rv : SendCoinsRecipient)
    (i : QString × QString) : Option SendCoinsRecipient :=
  let marked := startsWith i.1 reqMarker
  let first := if marked then remove i.1 0 4 else i.1
  -- the `if … else if …` chain; the Boolean is `fShouldReturnFalse` after it
  let chain : Option (SendCoinsRecipient × Bool) :=
    if first = labelKey then
      some ({ rv with label := i.2 }, false)
    else if first = amountKey then
      if i.2.isEmpty then
        some (rv, false)
      else
        match parse i.2 with
        | none => none
        | some a => some ({ rv with amount := a }, false)
    else
      some (rv, marked)
  match chain with
  | none => none
  | some (rv1, fShouldReturnFalse) => if fShouldReturnFalse then none else some rv1

/-- The `for` loop over the query items, in order. -/
def loopItems (parse : QString → Option Int) :
    List (QString × QString) → SendCoinsRecipient → Option SendCoinsRecipient
  | [], rv => some rv
  | i :: rest, rv =>
    match loopBody parse rv i with
    | none => none
    | some rv1 => loopItems parse rest rv1

/-- Embedding of `bool parseBitcoinURI(const QUrl &uri, SendCoinsRecipient *out)`. -/
def parseBitcoinURI (parse : QString → Option Int) (uri : QUrl)
    (out : Option SendCoinsRecipient) : Bool × Option SendCoinsRecipient :=
  if uri.scheme ≠ expectedScheme then
    (false, out)
  else
    let rv : SendCoinsRecipient := { address := uri.path, label := [], amount := 0 }
    match loopItems parse uri.queryItems rv with
    | none => (false, out)
    | some rv1 => (true, out.map (fun _ => rv1))

/-- Splits `s` at the first occurrence of `d`: the text before it, and the text
after it when `d` occurs. -/
def splitFirst (d : Char) (s : QString) : QString × Option QString :=
  match s.dropWhile (fun c => c != d) with
  | [] => (s, none)
  | _ :: rest => (s.takeWhile (fun c => c != d), some rest)

/-- Splits `s` at every occurrence of `d`. -/
def splitAll (d : Char) : QString → List QString
  | [] => [[]]
  | c :: cs =>
    if c = d then [] :: splitAll d cs
    else
      match splitAll d cs with
      | [] => [[c]]
      | seg :: segs => (c :: seg) :: segs

/-- Modelled from the spec: the ordered query key/value pairs of a query string
(`QUrlQuery::queryItems`, a Qt facility that is not part of the sources): pairs are
separated by `&`, key and value by the first `=`; a pair without `=` has an empty
value and an empty query has no pairs.  No percent-decoding is modelled. -/
def queryItemsOf (query : QString) : List (QString × QString) :=
  if query.isEmpty then []
  else (splitAll '&' query).map (fun seg => ((splitFirst '=' seg).1, ((splitFirst '=' seg).2).getD []))

/-- Modelled from the spec: the generic URI decomposition facility (`QUrl(QString)`, a
Qt facility that is not part of the sources), as the case-preserving split the
specification describes: the scheme is the text before the first `:`, the path is
everything between the scheme and the query string, the query is the text after
the first `?`.  Text without a `:` has an empty scheme. -/
def QUrl.fromString (s : QString) : QUrl :=
  let schemeRest : QString × QString :=
    match splitFirst ':' s with
    | (_, none) => ([], s)
    | (sch, some rest) => (sch, rest)
  let pathQuery := splitFirst '?' schemeRest.2
  { scheme := schemeRest.1
    path := pathQuery.1
    queryItems := match pathQuery.2 with
      | none => []
      | some q => queryItemsOf q }

/-- Embedding of `bool parseBitcoinURI(QString uri, SendCoinsRecipient *out)`. -/
def parseBitcoinURIText (parse : QString → Option Int) (uri : QString)
    (out : Option SendCoinsRecipient) : Bool × Option SendCoinsRecipient :=
  let uri1 := if startsWith uri "PRiVCY://".toList then replace uri 0 12 "PRiVCY:".toList else uri
  parseBitcoinURI parse (QUrl.fromString uri1) out

/-- Value of a string of decimal digits. -/
def digitsValue (ds : QString) : Nat :=
  ds.foldl (fun acc c => acc * 10 + (c.toNat - '0'.toNat)) 0

/-- Modelled from the spec: `BitcoinUnits::parse` at unit BTC (`bitcoinunits.cpp` is not
part of the sources): the monetary-amount decimal parser, accepting a non-negative
decimal with at most 8 fractional digits and returning it scaled by `10^8`, or a
failure. -/
def parseBTC (value : QString) : Option Int :=
  let whole := (splitFirst '.' value).1
  let frac := ((splitFirst '.' value).2).getD []
  if whole ≠ [] ∧ whole.all Char.isDigit ∧ frac.all Char.isDigit ∧ frac.length ≤ 8 then
    some ((digitsValue whole * 10 ^ 8 + digitsValue frac * 10 ^ (8 - frac.length) : Nat) : Int)
  else
    none

/-- A recipient the caller's `*out` may hold before the call. -/
def someRecipient : SendCoinsRecipient :=
  { address := "old".toList, label := "old label".toList, amount := 7 }

/-- The delimiters of the generic URI syntax (RFC 3986 `gen-delims`). -/
def uriDelims : List Char := [':', '/', '?', '#', '[', ']', '@']

/-- The value of the last pair satisfying `p`, in query order, if there is one. -/
def lastValue (p : QString × QString → Bool) : List (QString × QString) → Option QString
  | [] => none
  | i :: rest =>
    match lastValue p rest with
    | some v => some v
    | none => if p i then some i.2 else none

/-- A pair whose marker-stripped key is `label`. -/
def isLabelPair (i : QString × QString) : Bool :=
  decide (strippedKey i.1 = labelKey)

/-- A pair whose marker-stripped key is `amount`. -/
def isAmountPair (i : QString × QString) : Bool :=
  decide (strippedKey i.1 = amountKey)

/-- A pair whose marker-stripped key is `amount` and whose value is not empty. -/
def isSetAmountPair (i : QString × QString) : Bool :=
  decide (strippedKey i.1 = amountKey) && !i.2.isEmpty

/-! ## The loop body, case by case -/

theorem loopBody_eq (parse : QString → Option Int) (rv : SendCoinsRecipient)
    (i : QString × QString) :
    loopBody parse rv i =
      if strippedKey i.1 = labelKey then some { rv with label := i.2 }
      else if strippedKey i.1 = amountKey then
        (if i.2 = [] then some rv
         else (parse i.2).map (fun a => { rv with amount := a }))
      else if startsWith i.1 reqMarker = true then none
      else some rv := by
  have hal : amountKey ≠ labelKey := by decide
  unfold loopBody strippedKey
  by_cases hl : (if startsWith i.1 reqMarker = true then remove i.1 0 4 else i.1) = labelKey
  · simp [hl]
  · by_cases ha : (if startsWith i.1 reqMarker = true then remove i.1 0 4 else i.1) = amountKey
    · by_cases hv : i.2 = []
      · simp [ha, hv, hal]
      · cases hp : parse i.2 <;> simp [ha, hv, hp, hal]
    · by_cases hm : startsWith i.1 reqMarker = true <;> simp_all

theorem strippedKey_marked (k : QString) : strippedKey (reqMarker ++ k) = k := by
  simp [strippedKey, startsWith, reqMarker, remove]

theorem startsWith_marked (k : QString) : startsWith (reqMarker ++ k) reqMarker = true := by
  simp [startsWith, reqMarker]

theorem strippedKey_unmarked (k : QString) (h : startsWith k reqMarker = false) :
    strippedKey k = k := by
  simp [strippedKey, h]

theorem strippedKey_labelKey : strippedKey labelKey = labelKey := by decide

theorem strippedKey_amountKey : strippedKey amountKey = amountKey := by decide

/-- A marked key other than `label` and `amount` makes the body return false. -/
theorem loopBody_marked_unknown (parse : QString → Option Int) (rv : SendCoinsRecipient)
    (k v : QString) (hl : k ≠ labelKey) (ha : k ≠ amountKey) :
    loopBody parse rv (reqMarker ++ k, v) = none := by
  rw [loopBody_eq]
  simp [strippedKey_marked, startsWith_marked, hl, ha]

/-- An unmarked key other than `label` and `amount` leaves the recipient as it is. -/
theorem loopBody_unmarked_unknown (parse : QString → Option Int) (rv : SendCoinsRecipient)
    (k v : QString) (hm : startsWith k reqMarker = false) (hl : k ≠ labelKey)
    (ha : k ≠ amountKey) :
    loopBody parse rv (k, v) = some rv := by
  rw [loopBody_eq]
  simp [strippedKey_unmarked k hm, hm, hl, ha]

/-- An amount pair whose non-empty value the amount parser rejects makes the body
return false. -/
theorem loopBody_bad_amount (parse : QString → Option Int) (rv : SendCoinsRecipient)
    (k v : QString) (hk : strippedKey k = amountKey) (hv : v ≠ []) (hp : parse v = none) :
    loopBody parse rv (k, v) = none := by
  rw [loopBody_eq]
  have : amountKey ≠ labelKey := by decide
  simp [hk, hv, hp, this]

/-- The body treats two pairs alike when their stripped keys and values agree and the
stripped key is a recognised one. -/
theorem loopBody_req_label (parse : QString → Option Int) (rv : SendCoinsRecipient)
    (v : QString) :
    loopBody parse rv (reqMarker ++ labelKey, v) = loopBody parse rv (labelKey, v) := by
  rw [loopBody_eq, loopBody_eq]
  simp [strippedKey_marked, strippedKey_labelKey]

theorem loopBody_req_amount (parse : QString → Option Int) (rv : SendCoinsRecipient)
    (v : QString) :
    loopBody parse rv (reqMarker ++ amountKey, v) = loopBody parse rv (amountKey, v) := by
  have : amountKey ≠ labelKey := by decide
  rw [loopBody_eq, loopBody_eq]
  simp [strippedKey_marked, strippedKey_amountKey, this]

/-! ## The loop -/

theorem loopItems_append (parse : QString → Option Int) (l1 l2 : List (QString × QString))
    (rv : SendCoinsRecipient) :
    loopItems parse (l1 ++ l2) rv = (loopItems parse l1 rv).bind (loopItems parse l2) := by
  induction l1 generalizing rv with
  | nil => simp [loopItems]
  | cons i rest ih =>
    simp only [List.cons_append, loopItems]
    cases loopBody parse rv i with
    | none => simp
    | some rv1 => simpa using ih rv1

theorem loopItems_cons (parse : QString → Option Int) (i : QString × QString)
    (rest : List (QString × QString)) (rv : SendCoinsRecipient) :
    loopItems parse (i :: rest) rv = (loopBody parse rv i).bind (loopItems parse rest) := by
  simp only [loopItems]
  cases loopBody parse rv i <;> rfl

/-- A pair on which the body returns false whatever the recipient built so far makes the
whole loop return false, wherever it stands. -/
theorem loopItems_none_of_mem (parse : QString → Option Int) (i : QString × QString)
    (hi : ∀ rv, loopBody parse rv i = none) (items : List (QString × QString))
    (hmem : i ∈ items) (rv : SendCoinsRecipient) : loopItems parse items rv = none := by
  induction items generalizing rv with
  | nil => simp at hmem
  | cons j rest ih =>
    rw [loopItems_cons]
    rcases List.mem_cons.mp hmem with h | h
    · subst h; simp [hi]
    · cases loopBody parse rv j with
      | none => rfl
      | some rv1 => simpa using ih h rv1

/-- Replacing a pair by one the body treats alike does not change the loop. -/
theorem loopItems_congr_mid (parse : QString → Option Int) (i j : QString × QString)
    (hij : ∀ rv, loopBody parse rv i = loopBody parse rv j)
    (l1 l2 : List (QString × QString)) (rv : SendCoinsRecipient) :
    loopItems parse (l1 ++ i :: l2) rv = loopItems parse (l1 ++ j :: l2) rv := by
  rw [loopItems_append, loopItems_append]
  congr 1
  funext rv1
  rw [loopItems_cons, loopItems_cons, hij]

/-- Removing a pair the body passes over does not change the loop. -/
theorem loopItems_skip_mid (parse : QString → Option Int) (i : QString × QString)
    (hi : ∀ rv, loopBody parse rv i = some rv)
    (l1 l2 : List (QString × QString)) (rv : SendCoinsRecipient) :
    loopItems parse (l1 ++ i :: l2) rv = loopItems parse (l1 ++ l2) rv := by
  rw [loopItems_append, loopItems_append]
  congr 1
  funext rv1
  rw [loopItems_cons, hi]
  rfl

theorem parseBitcoinURI_of_loop_none (parse : QString → Option Int) (uri : QUrl)
    (out : Option SendCoinsRecipient)
    (h : ∀ rv, loopItems parse uri.queryItems rv = none) :
    parseBitcoinURI parse uri out = (false, out) := by
  unfold parseBitcoinURI
  split
  · rfl
  · simp [h]

theorem parseBitcoinURI_of_loop_some (parse : QString → Option Int) (uri : QUrl)
    (out : Option SendCoinsRecipient) (rv : SendCoinsRecipient)
    (hs : uri.scheme = expectedScheme)
    (h : loopItems parse uri.queryItems { address := uri.path, label := [], amount := 0 }
      = some rv) :
    parseBitcoinURI parse uri out = (true, out.map (fun _ => rv)) := by
  unfold parseBitcoinURI
  simp [hs, h]

/-- A successful call on a non-null `out` is a successful run of the loop from the
initial recipient. -/
theorem loop_of_parseBitcoinURI_true (parse : QString → Option Int) (uri : QUrl)
    (r0 rv : SendCoinsRecipient)
    (h : parseBitcoinURI parse uri (some r0) = (true, some rv)) :
    uri.scheme = expectedScheme ∧
      loopItems parse uri.queryItems { address := uri.path, label := [], amount := 0 }
        = some rv := by
  unfold parseBitcoinURI at h
  by_cases hs : uri.scheme = expectedScheme
  · refine ⟨hs, ?_⟩
    simp only [hs, ne_eq, not_true_eq_false, if_false] at h
    cases hl : loopItems parse uri.queryItems { address := uri.path, label := [], amount := 0 } with
    | none => simp [hl] at h
    | some rv1 =>
      simp [hl] at h
      rw [h]
  · simp [hs] at h

/-- What a successful run of the loop does to the recipient it started from. -/
theorem loopItems_fields (parse : QString → Option Int) (items : List (QString × QString))
    (rv0 rv : SendCoinsRecipient) (h : loopItems parse items rv0 = some rv) :
    rv.address = rv0.address ∧
    rv.label = (lastValue isLabelPair items).getD rv0.label ∧
    (match lastValue isSetAmountPair items with
     | none => rv.amount = rv0.amount
     | some v => parse v = some rv.amount) := by
  have hal : amountKey ≠ labelKey := by decide
  induction items generalizing rv0 with
  | nil =>
    simp only [loopItems, Option.some.injEq] at h
    subst h
    simp [lastValue]
  | cons i rest ih =>
    rw [loopItems_cons] at h
    cases hb : loopBody parse rv0 i with
    | none => simp [hb] at h
    | some rv1 =>
      rw [hb] at h
      have ih1 := ih rv1 h
      rw [loopBody_eq] at hb
      obtain ⟨ha, hl, hm⟩ := ih1
      by_cases kl : strippedKey i.1 = labelKey
      · have kna : strippedKey i.1 ≠ amountKey := by rw [kl]; exact fun e => hal e.symm
        simp only [kl, if_true, Option.some.injEq] at hb
        subst hb
        refine ⟨ha, ?_, ?_⟩
        · simp only [lastValue, isLabelPair, kl, decide_True, if_true]
          cases hlv : lastValue isLabelPair rest with
          | none => simpa [hlv] using hl
          | some v => simpa [hlv] using hl
        · simp only [lastValue, isSetAmountPair, kna, decide_False, Bool.false_and]
          cases hlv : lastValue isSetAmountPair rest with
          | none => simpa [hlv] using hm
          | some v => simpa [hlv] using hm
      · by_cases ka : strippedKey i.1 = amountKey
        · by_cases hv : i.2 = []
          · simp [ka, hv, hal] at hb
            subst hb
            refine ⟨ha, ?_, ?_⟩
            · simp only [lastValue, isLabelPair, kl, decide_False]
              cases hlv : lastValue isLabelPair rest with
              | none => simpa [hlv] using hl
              | some v => simpa [hlv] using hl
            · simp only [lastValue, isSetAmountPair, hv, List.isEmpty_nil, Bool.not_true,
                Bool.and_false]
              cases hlv : lastValue isSetAmountPair rest with
              | none => simpa [hlv] using hm
              | some v => simpa [hlv] using hm
          · cases hp : parse i.2 with
            | none => simp [ka, hv, hal, hp] at hb
            | some a =>
              simp [ka, hv, hal, hp] at hb
              subst hb
              refine ⟨ha, ?_, ?_⟩
              · simp only [lastValue, isLabelPair, kl, decide_False]
                cases hlv : lastValue isLabelPair rest with
                | none => simpa [hlv] using hl
                | some v => simpa [hlv] using hl
              · have hne : i.2.isEmpty = false := by
                  cases hi : i.2 with
                  | nil => exact absurd hi hv
                  | cons c cs => rfl
                simp only [lastValue, isSetAmountPair, ka, decide_True, hne, Bool.not_false,
                  Bool.and_true, if_true]
                cases hlv : lastValue isSetAmountPair rest with
                | none => simpa [hlv, hp, eq_comm] using hm
                | some v => simpa [hlv] using hm
        · by_cases hmk : startsWith i.1 reqMarker = true
          · simp [kl, ka, hmk] at hb
          · simp [kl, ka, hmk] at hb
            subst hb
            refine ⟨ha, ?_, ?_⟩
            · simp only [lastValue, isLabelPair, kl, decide_False]
              cases hlv : lastValue isLabelPair rest with
              | none => simpa [hlv] using hl
              | some v => simpa [hlv] using hl
            · simp only [lastValue, isSetAmountPair, ka, decide_False, Bool.false_and]
              cases hlv : lastValue isSetAmountPair rest with
              | none => simpa [hlv] using hm
              | some v => simpa [hlv] using hm

/-! ## The textual overload and the URI decomposition -/

theorem splitFirst_of_not_mem (d : Char) (s : QString) (h : d ∉ s) :
    splitFirst d s = (s, none) := by
  have hd : s.dropWhile (fun c => c != d) = [] := by
    rw [List.dropWhile_eq_nil_iff]
    intro c hc
    have : c ≠ d := fun e => h (e ▸ hc)
    simpa using this
  unfold splitFirst
  rw [hd]

theorem splitFirst_scheme_colon (a : QString) :
    splitFirst ':' ("PRiVCY:".toList ++ a) = (expectedScheme, some a) := by
  have e : "PRiVCY:".toList = ['P', 'R', 'i', 'V', 'C', 'Y', ':'] := rfl
  rw [e]
  simp [splitFirst, expectedScheme, List.dropWhile, List.takeWhile]

/-- The decomposition of a text that begins with the expected scheme and a colon. -/
theorem fromString_scheme_colon (a : QString) :
    QUrl.fromString ("PRiVCY:".toList ++ a) =
      { scheme := expectedScheme
        path := (splitFirst '?' a).1
        queryItems := match (splitFirst '?' a).2 with
          | none => []
          | some q => queryItemsOf q } := by
  unfold QUrl.fromString
  rw [splitFirst_scheme_colon]

theorem fromString_scheme (s : QString) :
    (QUrl.fromString s).scheme = [] ∨ (QUrl.fromString s).scheme = (splitFirst ':' s).1 := by
  unfold QUrl.fromString
  rcases hs : splitFirst ':' s with ⟨sch, _ | rest⟩
  · left; rfl
  · right; rfl

theorem startsWith_slashes_iff (s : QString) :
    startsWith s "PRiVCY://".toList = true ↔ ∃ rest, s = "PRiVCY://".toList ++ rest := by
  unfold startsWith
  rw [List.isPrefixOf_iff_prefix]
  constructor
  · rintro ⟨t, ht⟩
    exact ⟨t, ht.symm⟩
  · rintro ⟨t, ht⟩
    exact ⟨t, ht.symm⟩

/-- The textual overload on a text that does not begin with `PRiVCY://`. -/
theorem parseBitcoinURIText_plain (parse : QString → Option Int) (s : QString)
    (out : Option SendCoinsRecipient) (h : startsWith s "PRiVCY://".toList = false) :
    parseBitcoinURIText parse s out = parseBitcoinURI parse (QUrl.fromString s) out := by
  unfold parseBitcoinURIText
  simp only [h, Bool.false_eq_true, if_false]

/-- The textual overload on a text that begins with `PRiVCY://`: `replace(0, 12, …)`
takes away the nine characters of `PRiVCY://` and the three characters after them. -/
theorem parseBitcoinURIText_slashes (parse : QString → Option Int) (rest : QString)
    (out : Option SendCoinsRecipient) :
    parseBitcoinURIText parse ("PRiVCY://".toList ++ rest) out =
      parseBitcoinURI parse (QUrl.fromString ("PRiVCY:".toList ++ rest.drop 3)) out := by
  have hs : startsWith ("PRiVCY://".toList ++ rest) "PRiVCY://".toList = true :=
    (startsWith_slashes_iff _).2 ⟨rest, rfl⟩
  have hr : replace ("PRiVCY://".toList ++ rest) 0 12 "PRiVCY:".toList
      = "PRiVCY:".toList ++ rest.drop 3 := by
    have e : "PRiVCY://".toList = ['P', 'R', 'i', 'V', 'C', 'Y', ':', '/', '/'] := rfl
    rw [e]
    simp [replace]
  unfold parseBitcoinURIText
  simp only [hs, if_true, hr]

theorem parseBitcoinURI_wrong_scheme (parse : QString → Option Int) (uri : QUrl)
    (out : Option SendCoinsRecipient) (h : uri.scheme ≠ expectedScheme) :
    parseBitcoinURI parse uri out = (false, out) := by
  unfold parseBitcoinURI
  simp [h]

theorem parseBitcoinURIText_wrong_scheme (parse : QString → Option Int) (s : QString)
    (out : Option SendCoinsRecipient) (h : (splitFirst ':' s).1 ≠ expectedScheme) :
    parseBitcoinURIText parse s out = (false, out) := by
  have hsw : startsWith s "PRiVCY://".toList = false := by
    cases hb : startsWith s "PRiVCY://".toList with
    | false => rfl
    | true =>
      exfalso
      obtain ⟨rest, hrest⟩ := (startsWith_slashes_iff s).1 hb
      apply h
      have e : "PRiVCY://".toList ++ rest = "PRiVCY:".toList ++ ('/' :: '/' :: rest) := rfl
      rw [hrest, e, splitFirst_scheme_colon]
  rw [parseBitcoinURIText_plain parse s out hsw]
  apply parseBitcoinURI_wrong_scheme
  rcases fromString_scheme s with h0 | h1
  · rw [h0]; decide
  · rw [h1]; exact h

/-! ## The claims -/

/-- C1: for every address text `a` without a URI delimiter, the textual overload on
`"PRiVCY:" + a` succeeds and hands back the recipient with address `a` unchanged, an
empty label and amount 0. -/
theorem C1_single_colon_address (parse : QString → Option Int) (a : QString)
    (out : Option SendCoinsRecipient) (h : ∀ c ∈ a, c ∉ uriDelims) :
    parseBitcoinURIText parse ("PRiVCY:".toList ++ a) out =
      (true, out.map (fun _ => { address := a, label := [], amount := 0 })) := by
  have hq : '?' ∉ a := fun hm => h _ hm (by decide)
  have hsw : startsWith ("PRiVCY:".toList ++ a) "PRiVCY://".toList = false := by
    cases hb : startsWith ("PRiVCY:".toList ++ a) "PRiVCY://".toList with
    | false => rfl
    | true =>
      exfalso
      obtain ⟨rest, hrest⟩ := (startsWith_slashes_iff _).1 hb
      have e : "PRiVCY://".toList ++ rest = "PRiVCY:".toList ++ ('/' :: '/' :: rest) := rfl
      rw [e] at hrest
      have ha : a = '/' :: '/' :: rest := List.append_cancel_left hrest
      exact h '/' (by rw [ha]; simp) (by decide)
  rw [parseBitcoinURIText_plain parse _ out hsw, fromString_scheme_colon,
    splitFirst_of_not_mem '?' a hq]
  exact parseBitcoinURI_of_loop_some parse _ out _ rfl rfl

/-- C1, at the address `1A2b3C`. -/
theorem C1_single_colon_address_witness :
    (∀ c ∈ "1A2b3C".toList, c ∉ uriDelims) ∧
    parseBitcoinURIText parseBTC "PRiVCY:1A2b3C".toList (some someRecipient) =
      (true, some { address := "1A2b3C".toList, label := [], amount := 0 }) :=
  ⟨by decide, C1_single_colon_address parseBTC "1A2b3C".toList (some someRecipient) (by decide)⟩

/-- C2: what the code does with the double-slash form: the rewrite removes the two
slashes and the first three characters of what follows, so `PRiVCY://1A2b3C?label=x`
is parsed as `PRiVCY:b3C?label=x` and yields the address `b3C`, while the single-colon
form `PRiVCY:1A2b3C?label=x` yields the address `1A2b3C`. -/
theorem C2_double_slash_loses_three_characters :
    (∀ (parse : QString → Option Int) (rest : QString) (out : Option SendCoinsRecipient),
      parseBitcoinURIText parse ("PRiVCY://".toList ++ rest) out =
        parseBitcoinURI parse (QUrl.fromString ("PRiVCY:".toList ++ rest.drop 3)) out) ∧
    parseBitcoinURIText parseBTC "PRiVCY://1A2b3C?label=x".toList (some someRecipient) =
      (true, some { address := "b3C".toList, label := "x".toList, amount := 0 }) ∧
    parseBitcoinURIText parseBTC "PRiVCY:1A2b3C?label=x".toList (some someRecipient) =
      (true, some { address := "1A2b3C".toList, label := "x".toList, amount := 0 }) :=
  ⟨parseBitcoinURIText_slashes, by decide, by decide⟩

/-- C3, as stated, fails: `PRiVCY:1A2b3C?req-amount=1.5` has the expected scheme and a
pair whose key is `req-` followed by a key other than `label`, and it is accepted, with
amount 150000000. -/
theorem C3_counterexample :
    (QUrl.fromString "PRiVCY:1A2b3C?req-amount=1.5".toList).scheme = expectedScheme ∧
    (reqMarker ++ amountKey, "1.5".toList)
      ∈ (QUrl.fromString "PRiVCY:1A2b3C?req-amount=1.5".toList).queryItems ∧
    amountKey ≠ labelKey ∧
    parseBitcoinURIText parseBTC "PRiVCY:1A2b3C?req-amount=1.5".toList (some someRecipient) =
      (true, some { address := "1A2b3C".toList, label := [], amount := 150000000 }) := by
  decide

/-- C3, amended: the required marker is satisfied by the keys `label` and `amount` and by
no other key.  A pair whose key is `req-` followed by a key other than `label` and
`amount` makes `parseBitcoinURI` return false; a pair `req-amount = v` is treated exactly
like `amount = v`. -/
theorem C3_required_marker (parse : QString → Option Int) (uri : QUrl)
    (out : Option SendCoinsRecipient) :
    (∀ k v, k ≠ labelKey → k ≠ amountKey → (reqMarker ++ k, v) ∈ uri.queryItems →
      (parseBitcoinURI parse uri out).1 = false) ∧
    (∀ l1 l2 v, uri.queryItems = l1 ++ (reqMarker ++ amountKey, v) :: l2 →
      parseBitcoinURI parse uri out =
        parseBitcoinURI parse { uri with queryItems := l1 ++ (amountKey, v) :: l2 } out) := by
  constructor
  · intro k v hl ha hmem
    rw [parseBitcoinURI_of_loop_none parse uri out
      (loopItems_none_of_mem parse _ (fun rv => loopBody_marked_unknown parse rv k v hl ha)
        _ hmem)]
  · intro l1 l2 v hq
    unfold parseBitcoinURI
    simp only [hq]
    rw [loopItems_congr_mid parse _ _ (fun rv => loopBody_req_amount parse rv v)]

/-- C3, amended, at `PRiVCY:1A2b3C?req-nonexistent=1&label=x` (rejected) and at
`PRiVCY:1A2b3C?req-amount=1.5` (same outcome as `PRiVCY:1A2b3C?amount=1.5`). -/
theorem C3_required_marker_witness :
    (parseBitcoinURI parseBTC
      (QUrl.fromString "PRiVCY:1A2b3C?req-nonexistent=1&label=x".toList)
      (some someRecipient)).1 = false ∧
    parseBitcoinURI parseBTC (QUrl.fromString "PRiVCY:1A2b3C?req-amount=1.5".toList)
        (some someRecipient) =
      parseBitcoinURI parseBTC (QUrl.fromString "PRiVCY:1A2b3C?amount=1.5".toList)
        (some someRecipient) :=
  ⟨(C3_required_marker parseBTC
      (QUrl.fromString "PRiVCY:1A2b3C?req-nonexistent=1&label=x".toList)
      (some someRecipient)).1 "nonexistent".toList "1".toList
      (by decide) (by decide) (by decide),
   (C3_required_marker parseBTC (QUrl.fromString "PRiVCY:1A2b3C?req-amount=1.5".toList)
      (some someRecipient)).2 [] [] "1.5".toList (by decide)⟩

/-- C4: if some query pair has a key `req-` followed by a key that is neither `label` nor
`amount`, `parseBitcoinURI` returns false, whatever the other pairs are and wherever the
pair stands, and `*out` is left as it was. -/
theorem C4_unknown_required_key_fails (parse : QString → Option Int) (uri : QUrl)
    (out : Option SendCoinsRecipient) (k v : QString)
    (hl : k ≠ labelKey) (ha : k ≠ amountKey) (hmem : (reqMarker ++ k, v) ∈ uri.queryItems) :
    parseBitcoinURI parse uri out = (false, out) :=
  parseBitcoinURI_of_loop_none parse uri out
    (loopItems_none_of_mem parse _ (fun rv => loopBody_marked_unknown parse rv k v hl ha)
      _ hmem)

/-- C4, at `PRiVCY:1A2b3C?req-nonexistent=1`. -/
theorem C4_unknown_required_key_fails_witness :
    ("nonexistent".toList ≠ labelKey ∧ "nonexistent".toList ≠ amountKey ∧
      (reqMarker ++ "nonexistent".toList, "1".toList)
        ∈ (QUrl.fromString "PRiVCY:1A2b3C?req-nonexistent=1".toList).queryItems) ∧
    parseBitcoinURI parseBTC (QUrl.fromString "PRiVCY:1A2b3C?req-nonexistent=1".toList)
      (some someRecipient) = (false, some someRecipient) :=
  ⟨by decide,
   C4_unknown_required_key_fails parseBTC
    (QUrl.fromString "PRiVCY:1A2b3C?req-nonexistent=1".toList) (some someRecipient)
    "nonexistent".toList "1".toList (by decide) (by decide) (by decide)⟩

/-- C5: the scheme is compared with `PRiVCY` exactly as given.  A text whose part before
the first `:` is not character for character `PRiVCY` is rejected with `*out` untouched,
and so is every `QUrl` with another scheme; with the exact scheme the check passes, so
the outcome is that of the walk over the query pairs. -/
theorem C5_scheme_compared_exactly (parse : QString → Option Int)
    (out : Option SendCoinsRecipient) :
    (∀ s : QString, (splitFirst ':' s).1 ≠ expectedScheme →
      parseBitcoinURIText parse s out = (false, out)) ∧
    (∀ uri : QUrl, uri.scheme ≠ expectedScheme →
      parseBitcoinURI parse uri out = (false, out)) ∧
    (∀ uri : QUrl, uri.scheme = expectedScheme →
      (parseBitcoinURI parse uri out).1 =
        (loopItems parse uri.queryItems
          { address := uri.path, label := [], amount := 0 }).isSome) := by
  refine ⟨fun s h => parseBitcoinURIText_wrong_scheme parse s out h,
    fun uri h => parseBitcoinURI_wrong_scheme parse uri out h, ?_⟩
  intro uri hs
  unfold parseBitcoinURI
  cases hl : loopItems parse uri.queryItems { address := uri.path, label := [], amount := 0 }
    <;> simp [hs, hl]

/-- C5, at `wrongscheme:1A2b3C`, `privcy:1A2b3C`, `PRIVCY:1A2b3C` (rejected) and at
`PRiVCY:1A2b3C` (the check passes). -/
theorem C5_scheme_compared_exactly_witness :
    parseBitcoinURIText parseBTC "wrongscheme:1A2b3C".toList (some someRecipient)
      = (false, some someRecipient) ∧
    parseBitcoinURIText parseBTC "privcy:1A2b3C".toList (some someRecipient)
      = (false, some someRecipient) ∧
    parseBitcoinURI parseBTC (QUrl.fromString "PRIVCY:1A2b3C".toList) (some someRecipient)
      = (false, some someRecipient) ∧
    (parseBitcoinURI parseBTC (QUrl.fromString "PRiVCY:1A2b3C".toList)
      (some someRecipient)).1 = true :=
  ⟨(C5_scheme_compared_exactly parseBTC (some someRecipient)).1
      "wrongscheme:1A2b3C".toList (by decide),
   (C5_scheme_compared_exactly parseBTC (some someRecipient)).1
      "privcy:1A2b3C".toList (by decide),
   (C5_scheme_compared_exactly parseBTC (some someRecipient)).2.1
      (QUrl.fromString "PRIVCY:1A2b3C".toList) (by decide),
   ((C5_scheme_compared_exactly parseBTC (some someRecipient)).2.2
      (QUrl.fromString "PRiVCY:1A2b3C".toList) (by decide)).trans (by decide)⟩

/-- C6: if some query pair has the (marker-stripped) key `amount` and a non-empty value
that the amount parser rejects, `parseBitcoinURI` returns false and leaves `*out` as it
was, whatever the address and the other pairs are. -/
theorem C6_invalid_amount_fails (parse : QString → Option Int) (uri : QUrl)
    (out : Option SendCoinsRecipient) (k v : QString)
    (hk : strippedKey k = amountKey) (hv : v ≠ []) (hp : parse v = none)
    (hmem : (k, v) ∈ uri.queryItems) :
    parseBitcoinURI parse uri out = (false, out) :=
  parseBitcoinURI_of_loop_none parse uri out
    (loopItems_none_of_mem parse _ (fun rv => loopBody_bad_amount parse rv k v hk hv hp)
      _ hmem)

/-- C6, at `PRiVCY:1A2b3C?amount=abc`. -/
theorem C6_invalid_amount_fails_witness :
    (strippedKey amountKey = amountKey ∧ "abc".toList ≠ [] ∧ parseBTC "abc".toList = none ∧
      (amountKey, "abc".toList)
        ∈ (QUrl.fromString "PRiVCY:1A2b3C?amount=abc".toList).queryItems) ∧
    parseBitcoinURI parseBTC (QUrl.fromString "PRiVCY:1A2b3C?amount=abc".toList)
      (some someRecipient) = (false, some someRecipient) :=
  ⟨by decide,
   C6_invalid_amount_fails parseBTC (QUrl.fromString "PRiVCY:1A2b3C?amount=abc".toList)
    (some someRecipient) amountKey "abc".toList (by decide) (by decide) (by decide)
    (by decide)⟩

/-- C7: a query pair whose key does not start with `req-` and is neither `label` nor
`amount` is ignored: with the pair at any position, `parseBitcoinURI` returns the same
flag and the same `*out` as on the URI without the pair. -/
theorem C7_unknown_unmarked_key_ignored (parse : QString → Option Int)
    (scheme path : QString) (l1 l2 : List (QString × QString)) (k v : QString)
    (out : Option SendCoinsRecipient)
    (hm : startsWith k reqMarker = false) (hl : k ≠ labelKey) (ha : k ≠ amountKey) :
    parseBitcoinURI parse { scheme := scheme, path := path, queryItems := l1 ++ (k, v) :: l2 }
        out =
      parseBitcoinURI parse { scheme := scheme, path := path, queryItems := l1 ++ l2 } out := by
  unfold parseBitcoinURI
  simp only
  rw [loopItems_skip_mid parse _
    (fun rv => loopBody_unmarked_unknown parse rv k v hm hl ha)]

/-- C7, at the pair `message = hi` between `amount = 1.5` and `label = Coffee`. -/
theorem C7_unknown_unmarked_key_ignored_witness :
    (startsWith "message".toList reqMarker = false ∧ "message".toList ≠ labelKey ∧
      "message".toList ≠ amountKey) ∧
    parseBitcoinURI parseBTC
        { scheme := expectedScheme, path := "1A2b3C".toList,
          queryItems := [(amountKey, "1.5".toList)] ++
            ("message".toList, "hi".toList) :: [(labelKey, "Coffee".toList)] }
        (some someRecipient) =
      parseBitcoinURI parseBTC
        { scheme := expectedScheme, path := "1A2b3C".toList,
          queryItems := [(amountKey, "1.5".toList)] ++ [(labelKey, "Coffee".toList)] }
        (some someRecipient) :=
  ⟨by decide,
   C7_unknown_unmarked_key_ignored parseBTC expectedScheme "1A2b3C".toList
    [(amountKey, "1.5".toList)] [(labelKey, "Coffee".toList)] "message".toList "hi".toList
    (some someRecipient) (by decide) (by decide) (by decide)⟩

/-- C8: a pair `req-label = v` is treated exactly like `label = v`, at any position; a URI
with the expected scheme whose only pair is `req-label = v` succeeds with label `v`; and
`PRiVCY:1A2b3C?req-label=Pay` succeeds with label `Pay`. -/
theorem C8_required_label_satisfied (parse : QString → Option Int)
    (out : Option SendCoinsRecipient) :
    (∀ (scheme path : QString) (l1 l2 : List (QString × QString)) (v : QString),
      parseBitcoinURI parse
          { scheme := scheme, path := path,
            queryItems := l1 ++ (reqMarker ++ labelKey, v) :: l2 } out =
        parseBitcoinURI parse
          { scheme := scheme, path := path, queryItems := l1 ++ (labelKey, v) :: l2 } out) ∧
    (∀ path v : QString,
      parseBitcoinURI parse
          { scheme := expectedScheme, path := path,
            queryItems := [(reqMarker ++ labelKey, v)] } out =
        (true, out.map (fun _ => { address := path, label := v, amount := 0 }))) ∧
    parseBitcoinURIText parse "PRiVCY:1A2b3C?req-label=Pay".toList out =
      (true, out.map (fun _ =>
        { address := "1A2b3C".toList, label := "Pay".toList, amount := 0 })) := by
  have single : ∀ path v : QString,
      parseBitcoinURI parse
          { scheme := expectedScheme, path := path,
            queryItems := [(reqMarker ++ labelKey, v)] } out =
        (true, out.map (fun _ => { address := path, label := v, amount := 0 })) := by
    intro path v
    apply parseBitcoinURI_of_loop_some parse _ out _ rfl
    simp only [loopItems]
    rw [loopBody_req_label, loopBody_eq]
    simp [strippedKey_labelKey]
  refine ⟨?_, single, ?_⟩
  · intro scheme path l1 l2 v
    unfold parseBitcoinURI
    simp only
    rw [loopItems_congr_mid parse _ _ (fun rv => loopBody_req_label parse rv v)]
  · have hd : QUrl.fromString "PRiVCY:1A2b3C?req-label=Pay".toList =
        { scheme := expectedScheme, path := "1A2b3C".toList,
          queryItems := [(reqMarker ++ labelKey, "Pay".toList)] } := by decide
    have hsw : startsWith "PRiVCY:1A2b3C?req-label=Pay".toList "PRiVCY://".toList = false := by
      decide
    rw [parseBitcoinURIText_plain parse _ out hsw, hd]
    exact single _ _

/-- C9, as stated, fails: `PRiVCY:` and `PRiVCY:?label=x` are accepted, with an empty
address. -/
theorem C9_counterexample :
    parseBitcoinURI parseBTC { scheme := expectedScheme, path := [], queryItems := [] }
        (some someRecipient) =
      (true, some { address := [], label := [], amount := 0 }) ∧
    parseBitcoinURIText parseBTC "PRiVCY:".toList (some someRecipient) =
      (true, some { address := [], label := [], amount := 0 }) ∧
    parseBitcoinURIText parseBTC "PRiVCY:?label=x".toList (some someRecipient) =
      (true, some { address := [], label := "x".toList, amount := 0 }) := by
  decide

/-- C9, amended: whenever `parseBitcoinURI` succeeds, the address of the recipient it
produces is the path of the URI, unvalidated; it is not empty when the path is not empty. -/
theorem C9_address_is_path (parse : QString → Option Int) (uri : QUrl)
    (r0 rv : SendCoinsRecipient)
    (h : parseBitcoinURI parse uri (some r0) = (true, some rv)) :
    rv.address = uri.path ∧ (uri.path ≠ [] → rv.address ≠ []) := by
  have ha := (loopItems_fields parse uri.queryItems _ rv
    (loop_of_parseBitcoinURI_true parse uri r0 rv h).2).1
  simp only at ha
  exact ⟨ha, fun hp => by rw [ha]; exact hp⟩

/-- C9, amended, at `PRiVCY:1A2b3C?label=x`. -/
theorem C9_address_is_path_witness :
    parseBitcoinURI parseBTC (QUrl.fromString "PRiVCY:1A2b3C?label=x".toList)
        (some someRecipient) =
      (true, some { address := "1A2b3C".toList, label := "x".toList, amount := 0 }) ∧
    "1A2b3C".toList = (QUrl.fromString "PRiVCY:1A2b3C?label=x".toList).path :=
  ⟨by decide,
   (C9_address_is_path parseBTC (QUrl.fromString "PRiVCY:1A2b3C?label=x".toList)
    someRecipient { address := "1A2b3C".toList, label := "x".toList, amount := 0 }
    (by decide)).1⟩

/-- C10, as stated, fails: in `PRiVCY:1A2b3C?amount=1.5&amount=` the last pair with key
`amount` has an empty value, yet the amount is 150000000 and not the default 0 that
`PRiVCY:1A2b3C?amount=` gives. -/
theorem C10_counterexample :
    lastValue isAmountPair
      (QUrl.fromString "PRiVCY:1A2b3C?amount=1.5&amount=".toList).queryItems = some [] ∧
    parseBitcoinURIText parseBTC "PRiVCY:1A2b3C?amount=1.5&amount=".toList
        (some someRecipient) =
      (true, some { address := "1A2b3C".toList, label := [], amount := 150000000 }) ∧
    parseBitcoinURIText parseBTC "PRiVCY:1A2b3C?amount=".toList (some someRecipient) =
      (true, some { address := "1A2b3C".toList, label := [], amount := 0 }) := by
  decide

/-- C10, amended: whenever `parseBitcoinURI` succeeds, the label is the value of the last
pair whose marker-stripped key is `label`, or empty if there is none, and the amount is
what the amount parser gives for the last pair whose marker-stripped key is `amount` and
whose value is not empty, or 0 if there is none: a pair with an empty amount value is
passed over and leaves the amount as it is. -/
theorem C10_last_write_wins (parse : QString → Option Int) (uri : QUrl)
    (r0 rv : SendCoinsRecipient)
    (h : parseBitcoinURI parse uri (some r0) = (true, some rv)) :
    rv.label = (lastValue isLabelPair uri.queryItems).getD [] ∧
    (match lastValue isSetAmountPair uri.queryItems with
     | none => rv.amount = 0
     | some v => parse v = some rv.amount) := by
  have hf := loopItems_fields parse uri.queryItems _ rv
    (loop_of_parseBitcoinURI_true parse uri r0 rv h).2
  exact hf.2

/-- C10, amended, at `PRiVCY:1A2b3C?label=a&amount=2&label=b&amount=1.5&amount=`. -/
theorem C10_last_write_wins_witness :
    parseBitcoinURI parseBTC
        (QUrl.fromString "PRiVCY:1A2b3C?label=a&amount=2&label=b&amount=1.5&amount=".toList)
        (some someRecipient) =
      (true, some { address := "1A2b3C".toList, label := "b".toList, amount := 150000000 }) ∧
    "b".toList = (lastValue isLabelPair (QUrl.fromString
      "PRiVCY:1A2b3C?label=a&amount=2&label=b&amount=1.5&amount=".toList).queryItems).getD [] :=
  ⟨by decide,
   (C10_last_write_wins parseBTC
    (QUrl.fromString "PRiVCY:1A2b3C?label=a&amount=2&label=b&amount=1.5&amount=".toList)
    someRecipient { address := "1A2b3C".toList, label := "b".toList, amount := 150000000 }
    (by decide)).1⟩

end GUIUtil
